import Mathlib

/-!
# Verification of the mini-arcade pygame backend rendering core

Shallow embedding of `src/mini_arcade_pygame_backend/ports/render.py`,
`ports/text.py` and `ports/input.py`.

Conventions of the embedding:
* Python `bytes` / `bytearray` / `memoryview` buffers are `List Nat` (one
  entry per byte); Python slice reads `mv[a:b]` become `(l.take b).drop a`
  and slice assignment on a `bytearray` becomes `setSlice`.
* A Python `dict[int, V]` is an association list `List (Int × V)` with
  `dictGet` / `dictInsert` / `dictPop` mirroring `d.get`, `d[k] = v` and
  `d.pop(k, None)`.
* A `pygame.Surface` is its size plus its RGBA byte content; blitting to
  the screen is modelled by emitting a `Blit` record, so "the drawing
  surface is unchanged" is "the emitted blit list is empty".
  `pygame.transform.scale` is modelled as nearest-neighbour resampling
  (the spec leaves the filter to the implementer), and `convert_alpha`
  as pixel-preserving (a pixel-format conversion).
* A raised Python exception is `Except.error` with the exception text.
* `ViewportTransform`, the `Event`/`Key` types and the pygame font and
  event services live outside this repository (`mini_arcade_core`,
  `pygame`); they are modelled at their boundary from the spec, with
  `float` scale factors as rationals and `round` for Python rounding.
* Widths, heights and pixel sizes are taken non-negative (`Nat`), as in
  every call the API contract admits.
-/

namespace MiniArcade

/-- `d.get(k)` on a Python `dict[int, V]` modelled as an association list. -/
def dictGet {V : Type} (d : List (Int × V)) (k : Int) : Option V :=
  (d.find? (fun p => p.1 == k)).map (·.2)

/-- `d[k] = v`: overwrite the entry for `k` if present, else append a new one. -/
def dictInsert {V : Type} (d : List (Int × V)) (k : Int) (v : V) : List (Int × V) :=
  if (dictGet d k).isSome then
    d.map (fun p => if p.1 == k then (k, v) else p)
  else
    d ++ [(k, v)]

/-- `d.pop(k, None)`'s effect on the dictionary: remove the entry for `k` if present. -/
def dictPop {V : Type} (d : List (Int × V)) (k : Int) : List (Int × V) :=
  d.eraseP (fun p => p.1 == k)

/-- Modelled from the spec: `ViewportTransform` lives in `mini_arcade_core`
(not in this repository).  Per spec §3 it carries integer offsets and a
scale factor (`scale > 0`, default 1.0), read through the attribute `s` by
the ports.  The Python `float` scale is modelled as a rational. -/
structure ViewportTransform where
  offset_x : Int
  offset_y : Int
  s : ℚ
  deriving DecidableEq, Repr

/-- Modelled from the spec: `map_xy(x,y) = (offset_x + round(x*scale),
offset_y + round(y*scale))` (spec §3; the tie-breaking of `round` is left
to the implementation by spec §4.1). -/
def ViewportTransform.map_xy (vp : ViewportTransform) (x y : Int) : Int × Int :=
  (vp.offset_x + round ((x : ℚ) * vp.s), vp.offset_y + round ((y : ℚ) * vp.s))

/-- Modelled from the spec: `map_wh(w,h) = (round(w*scale), round(h*scale))` (spec §3). -/
def ViewportTransform.map_wh (vp : ViewportTransform) (w h : Int) : Int × Int :=
  (round ((w : ℚ) * vp.s), round ((h : ℚ) * vp.s))

/-- A `pygame.Surface`: its pixel size and its RGBA bytes (4 bytes per pixel,
row-major). -/
structure Surface where
  w : Nat
  h : Nat
  pixels : List Nat
  deriving DecidableEq, Repr

/-- `pygame.image.frombuffer(buf, (w, h), "RGBA")` (composed with
`convert_alpha()`, which converts the pixel format but preserves the pixel
values): a surface holding the first `w*h*4` bytes of the buffer. -/
def frombuffer (buf : List Nat) (w h : Nat) : Surface :=
  ⟨w, h, buf.take (w * h * 4)⟩

/-- `pygame.transform.scale(s, (w, h))`: nearest-neighbour resampling to the
new size (the resampling filter is the implementer's choice per spec §4.3). -/
def Surface.scale (s : Surface) (w h : Nat) : Surface :=
  ⟨w, h,
    (List.range h).flatMap fun j =>
      (List.range w).flatMap fun i =>
        let si := i * s.w / w
        let sj := j * s.h / h
        (List.range 4).map fun c => s.pixels.getD ((sj * s.w + si) * 4 + c) 0⟩

/-- `s.subsurface(Rect(0, 0, s.w, h'))`: the top `h'` rows of the surface. -/
def Surface.cropTop (s : Surface) (h' : Nat) : Surface :=
  ⟨s.w, h', s.pixels.take (h' * s.w * 4)⟩

/-- One `screen.blit(img, (dx, dy))` call recorded by a draw operation. -/
structure Blit where
  img : Surface
  dx : Int
  dy : Int
  deriving DecidableEq, Repr

/-- State of `RenderPort` (`ports/render.py`): the viewport transform, the
next texture id (`_next_tex_id`, starts at 1) and the texture dictionary
(`_textures`).  The window and clear color play no role in the texture
claims and are omitted. -/
structure RenderPort where
  vp : ViewportTransform
  nextTexId : Int
  textures : List (Int × Surface)
  deriving DecidableEq, Repr

/-- `RenderPort.__init__`: `_next_tex_id = 1`, `_textures = {}`. -/
def RenderPort.init (vp : ViewportTransform) : RenderPort :=
  ⟨vp, 1, []⟩

/-- The `ValueError` text of `create_texture_rgba`'s buffer check. -/
def bufferTooSmallMsg (nbytes needed : Nat) : String :=
  "create_texture_rgba: buffer too small (" ++ toString nbytes ++
    ") for h*pitch (" ++ toString needed ++ ")"

/-- Python `bytearray` slice assignment `buf[i:j] = repl` (indices clamped
to the buffer length; the replacement need not have length `j - i`). -/
def setSlice (buf : List Nat) (i j : Nat) (repl : List Nat) : List Nat :=
  buf.take i ++ repl ++ buf.drop j

/-- The row-repacking loop of `create_texture_rgba` (render.py lines
172-178): starting from `bytearray(w * h * 4)`, for each `row` in
`range(h)` assign `packed[dst0:dst1] = mv[src0:src1]` with
`src0 = row*pitch`, `src1 = src0 + w*4`, `dst0 = row*(w*4)`, `dst1 = dst0 + w*4`. -/
def repackLoop (mv : List Nat) (w h pitch : Nat) : List Nat :=
  (List.range h).foldl
    (fun packed row =>
      setSlice packed (row * (w * 4)) (row * (w * 4) + w * 4)
        (((mv.take (row * pitch + w * 4)).drop (row * pitch))))
    (List.replicate (w * h * 4) 0)

/-- `RenderPort.create_texture_rgba(w, h, data, pitch=-1)`: normalize
`pitch <= 0` to `w*4`, fail with a `ValueError` when the buffer holds fewer
than `h*pitch` bytes, otherwise upload (fast path for tight packing,
row-repacking otherwise), store the surface under the current `_next_tex_id`,
and return the id after incrementing the counter. -/
def RenderPort.create_texture_rgba (st : RenderPort) (w h : Nat)
    (data : List Nat) (pitch : Int) : Except String (RenderPort × Int) :=
  let pitchN : Nat := if pitch ≤ 0 then w * 4 else pitch.toNat
  let needed : Nat := h * pitchN
  if data.length < needed then
    .error (bufferTooSmallMsg data.length needed)
  else
    let surf : Surface :=
      if pitchN = w * 4 then
        frombuffer (data.take needed) w h
      else
        frombuffer (repackLoop data w h pitchN) w h
    let tex_id := st.nextTexId
    .ok ({ st with nextTexId := st.nextTexId + 1,
                   textures := dictInsert st.textures tex_id surf }, tex_id)

/-- `RenderPort.draw_texture(tex, x, y, w, h)`: silently no-op on an unknown
handle; map position and size through the viewport; no-op when the mapped
width or height is ≤ 0; blit scaled when the native size differs from the
mapped size, at native resolution otherwise. -/
def RenderPort.draw_texture (st : RenderPort) (tex x y w h : Int) : List Blit :=
  match dictGet st.textures tex with
  | none => []
  | some surf =>
    let sxy := st.vp.map_xy x y
    let swh := st.vp.map_wh w h
    if swh.1 ≤ 0 ∨ swh.2 ≤ 0 then []
    else if (surf.w : Int) ≠ swh.1 ∨ (surf.h : Int) ≠ swh.2 then
      [⟨surf.scale swh.1.toNat swh.2.toNat, sxy.1, sxy.2⟩]
    else
      [⟨surf, sxy.1, sxy.2⟩]

/-- `RenderPort.destroy_texture(tex)`: `self._textures.pop(int(tex), None)`. -/
def RenderPort.destroy_texture (st : RenderPort) (tex : Int) : RenderPort :=
  { st with textures := dictPop st.textures tex }

/-- The `while cur_y < end_y` loop of `draw_texture_tiled_y`, with explicit
fuel (the Python loop does not terminate when the tile height is 0; `none`
means the fuel ran out before the loop did). -/
def tileLoop (tile : Surface) (x : Int) : Int → Int → Nat → Option (List Blit)
  | _, _, 0 => none
  | cur_y, end_y, fuel + 1 =>
    if cur_y < end_y then
      let remaining := end_y - cur_y
      if (tile.h : Int) ≤ remaining then
        (tileLoop tile x (cur_y + tile.h) end_y fuel).map
          (fun rest => ⟨tile, x, cur_y⟩ :: rest)
      else
        some [⟨tile.cropTop remaining.toNat, x, cur_y⟩]
    else
      some []

/-- `RenderPort.draw_texture_tiled_y(tex_id, x, y, w, h)`: resolve the
handle by `self._textures[tex_id]` (raising `KeyError` when absent), scale
the tile to the target width at its native height (`pygame.transform.scale`
raises on a negative size), then run the tiling loop.  The outer `Option`
is the loop fuel; the viewport transform is never consulted. -/
def RenderPort.draw_texture_tiled_y (st : RenderPort) (fuel : Nat)
    (tex_id x y w h : Int) : Option (Except String (List Blit)) :=
  match dictGet st.textures tex_id with
  | none => some (.error ("KeyError: " ++ toString tex_id))
  | some surf =>
    if w < 0 then some (.error "ValueError: Cannot scale to negative size")
    else
      let tile := surf.scale w.toNat surf.h
      (tileLoop tile x y (y + h) fuel).map .ok

/-- A `pygame.font.Font`: identified by the path it was opened from (`none`
for the pygame default font) and its pixel size. -/
structure Font where
  path : Option String
  size : Int
  deriving DecidableEq, Repr

/-- State of `TextPort` (`ports/text.py`): the viewport transform, the
configured font path (`_font_path`) and the font cache (`_fonts`,
a `dict[int, Font]` keyed by pixel size). -/
structure TextPort where
  vp : ViewportTransform
  font_path : Option String
  fonts : List (Int × Font)
  deriving DecidableEq, Repr

/-- The cache key computed at the top of `TextPort._font` (text.py lines
41-42): `size = int(font_size or 24); size = max(8, size)` (`or` takes the
Python falsiness of `None` and `0`). -/
def fontKey (font_size : Option Int) : Int :=
  let size : Int := match font_size with
    | none => 24
    | some v => if v = 0 then 24 else v
  max 8 size

/-- `TextPort._font(font_size)`: `size = max(8, int(font_size or 24))`;
return the cached font for `size` when present, otherwise open
`pygame.font.Font(self._font_path or None, size)`, cache it under `size`
and return it. -/
def TextPort._font (tp : TextPort) (font_size : Option Int) : Font × TextPort :=
  let size := fontKey font_size
  match dictGet tp.fonts size with
  | some cached => (cached, tp)
  | none =>
    let f : Font := match tp.font_path with
      | some p => if p = "" then ⟨none, size⟩ else ⟨some p, size⟩
      | none => ⟨none, size⟩
    (f, { tp with fonts := dictInsert tp.fonts size f })

/-- Python division, raising `ZeroDivisionError` on a zero divisor. -/
def pydiv (a b : ℚ) : Except String ℚ :=
  if b = 0 then .error "ZeroDivisionError: float division by zero"
  else .ok (a / b)

/-- The divisor `s = self._vp.s or 1.0` of `TextPort.measure` (text.py line
76): the viewport scale, with a falsy (zero) scale replaced by 1.0. -/
def measureDivisor (vp : ViewportTransform) : ℚ :=
  if vp.s = 0 then 1 else vp.s

/-- The `scaled_size` expression of `TextPort.measure` (text.py lines 68-72):
`None if font_size is None else max(8, int(round(font_size * self._vp.s)))`. -/
def measureScaledSize (vp : ViewportTransform) (font_size : Option Int) : Option Int :=
  font_size.map (fun v => max 8 (round ((v : ℚ) * vp.s)))

/-- The `scaled_size` expression of `TextPort.draw` (text.py lines 106-110),
textually duplicated from `measure` in the source. -/
def drawScaledSize (vp : ViewportTransform) (font_size : Option Int) : Option Int :=
  font_size.map (fun v => max 8 (round ((v : ℚ) * vp.s)))

/-- `TextPort.measure(text, font_size=None)`: resolve the font at the scaled
size, take the pixel extents from the host font metric (`f.size(text)`,
supplied as the parameter `metric`), then divide back by `self._vp.s or 1.0`
and round to report logical extents. -/
def TextPort.measure (metric : Font → String → Nat × Nat) (tp : TextPort)
    (text : String) (font_size : Option Int) :
    Except String ((Int × Int) × TextPort) :=
  let scaled_size := measureScaledSize tp.vp font_size
  let ftp := tp._font scaled_size
  let wh := metric ftp.1 text
  let s := measureDivisor tp.vp
  match pydiv (wh.1 : ℚ) s with
  | .error e => .error e
  | .ok rw =>
    match pydiv (wh.2 : ℚ) s with
    | .error e => .error e
    | .ok rh => .ok ((round rw, round rh), ftp.2)

/-- `TextPort.draw(x, y, text, color=..., font_size=None)`: normalize the
color via `rgba` (alpha dropped), map the position through the viewport,
resolve the font at the scaled size, rasterize (`f.render`, supplied as the
parameter `render`) and blit at the mapped position. -/
def TextPort.draw (render : Font → String → Int × Int × Int → Surface)
    (tp : TextPort) (x y : Int) (text : String)
    (color : Int × Int × Int × Int) (font_size : Option Int) :
    Blit × TextPort :=
  let sxy := tp.vp.map_xy x y
  let scaled_size := drawScaledSize tp.vp font_size
  let ftp := tp._font scaled_size
  let surf := render ftp.1 text (color.1, color.2.1, color.2.2.1)
  (⟨surf, sxy.1, sxy.2⟩, ftp.2)

/-- Modelled from the spec: the logical key enumeration of
`mini_arcade_core.backend.keys` (not in this repository), covering escape,
enter, space, tab, backspace, arrow keys, function keys 1-12, letters a-z
and digits 0-9 (spec §4.5). -/
inductive Key
  | ESCAPE | ENTER | SPACE | TAB | BACKSPACE
  | UP | DOWN | LEFT | RIGHT
  | F1 | F2 | F3 | F4 | F5 | F6 | F7 | F8 | F9 | F10 | F11 | F12
  | A | B | C | D | E | F | G | H | I | J | K | L | M
  | N | O | P | Q | R | S | T | U | V | W | X | Y | Z
  | NUM_0 | NUM_1 | NUM_2 | NUM_3 | NUM_4
  | NUM_5 | NUM_6 | NUM_7 | NUM_8 | NUM_9
  deriving DecidableEq, Repr

/-- Modelled from the spec: the normalized event type tags of
`mini_arcade_core.backend.events` (not in this repository): quit, key-down,
key-up, window-resized, text-input, mouse-motion, mouse-button-down/up,
mouse-wheel (spec §3). -/
inductive EventType
  | QUIT | KEYDOWN | KEYUP | WINDOWRESIZED | TEXTINPUT
  | MOUSEMOTION | MOUSEBUTTONDOWN | MOUSEBUTTONUP | MOUSEWHEEL
  deriving DecidableEq, Repr

/-- Modelled from the spec: the normalized `Event` record of
`mini_arcade_core.backend.events` (not in this repository): a tag plus the
optional fields the call sites in `ports/input.py` populate, every field
defaulting to `None` (spec §3). -/
structure Event where
  type : EventType
  key : Option Key := none
  key_code : Option Int := none
  scancode : Option Int := none
  mod : Option Int := none
  rep : Option Bool := none
  size : Option (Int × Int) := none
  text : Option String := none
  x : Option Int := none
  y : Option Int := none
  dx : Option Int := none
  dy : Option Int := none
  button : Option Int := none
  wheel : Option (Int × Int) := none
  deriving DecidableEq, Repr

/-- A raw pygame event as `InputPort.poll` inspects it: the dispatch is on
`ev.type`, and each recognized type carries the attributes the translator
reads (`scancode`/`mod`/`repeat` are read with `getattr(ev, ..., default)`,
so they are optional on the raw event).  `other t` stands for any raw event
whose type is none of the nine recognized pygame event types. -/
inductive RawEvent
  | QUIT
  | KEYDOWN (key : Int) (scancode : Option Int) (mod : Option Int) (rep : Option Bool)
  | KEYUP (key : Int) (scancode : Option Int) (mod : Option Int)
  | VIDEORESIZE (w h : Int)
  | TEXTINPUT (text : String)
  | MOUSEMOTION (pos rel : Int × Int)
  | MOUSEBUTTONDOWN (button : Int) (pos : Int × Int)
  | MOUSEBUTTONUP (button : Int) (pos : Int × Int)
  | MOUSEWHEEL (x y : Int)
  | other (t : Int)
  deriving DecidableEq, Repr

/-- The `PYGAME_KEY_TO_KEY` table of `ports/input.py`: the explicit entries,
then letters `a`-`z`, then digits `0`-`9`.  The integer codes are the host's
(pygame 2 / SDL2) keycode constants. -/
def PYGAME_KEY_TO_KEY : List (Int × Key) :=
  [(27, .ESCAPE), (13, .ENTER), (32, .SPACE), (9, .TAB), (8, .BACKSPACE),
   (1073741906, .UP), (1073741905, .DOWN), (1073741904, .LEFT), (1073741903, .RIGHT),
   (1073741882, .F1), (1073741883, .F2), (1073741884, .F3), (1073741885, .F4),
   (1073741886, .F5), (1073741887, .F6), (1073741888, .F7), (1073741889, .F8),
   (1073741890, .F9), (1073741891, .F10), (1073741892, .F11), (1073741893, .F12),
   (97, .A), (98, .B), (99, .C), (100, .D), (101, .E), (102, .F), (103, .G),
   (104, .H), (105, .I), (106, .J), (107, .K), (108, .L), (109, .M),
   (110, .N), (111, .O), (112, .P), (113, .Q), (114, .R), (115, .S),
   (116, .T), (117, .U), (118, .V), (119, .W), (120, .X), (121, .Y), (122, .Z),
   (48, .NUM_0), (49, .NUM_1), (50, .NUM_2), (51, .NUM_3), (52, .NUM_4),
   (53, .NUM_5), (54, .NUM_6), (55, .NUM_7), (56, .NUM_8), (57, .NUM_9)]

/-- The body of `InputPort.poll`'s `for` loop for one raw event: the
`if ev.type == ...` dispatch chain, returning the appended normalized event,
or `none` when no branch matches (the event is silently dropped). -/
def normalizeEvent : RawEvent → Option Event
  | .QUIT => some { type := .QUIT }
  | .KEYDOWN key scancode mod rep =>
    some { type := .KEYDOWN, key := dictGet PYGAME_KEY_TO_KEY key,
           key_code := some key, scancode := scancode, mod := mod,
           rep := some (rep.getD false) }
  | .KEYUP key scancode mod =>
    some { type := .KEYUP, key := dictGet PYGAME_KEY_TO_KEY key,
           key_code := some key, scancode := scancode, mod := mod,
           rep := some false }
  | .VIDEORESIZE w h => some { type := .WINDOWRESIZED, size := some (w, h) }
  | .TEXTINPUT text => some { type := .TEXTINPUT, text := some text }
  | .MOUSEMOTION pos rel =>
    some { type := .MOUSEMOTION, x := some pos.1, y := some pos.2,
           dx := some rel.1, dy := some rel.2 }
  | .MOUSEBUTTONDOWN button pos =>
    some { type := .MOUSEBUTTONDOWN, button := some button,
           x := some pos.1, y := some pos.2 }
  | .MOUSEBUTTONUP button pos =>
    some { type := .MOUSEBUTTONUP, button := some button,
           x := some pos.1, y := some pos.2 }
  | .MOUSEWHEEL x y => some { type := .MOUSEWHEEL, wheel := some (x, y) }
  | .other _ => none

/-- `InputPort.poll()`: drain the raw queue (`pygame.event.get()`) in order,
appending one normalized event per recognized raw event to `out`. -/
def InputPort.poll (queue : List RawEvent) : List Event :=
  queue.foldl
    (fun out ev =>
      match normalizeEvent ev with
      | some e => out ++ [e]
      | none => out)
    []

/-- Create `n` one-pixel textures in sequence (each call
`create_texture_rgba(1, 1, b"\x00\x00\x00\x00")` succeeds), keeping the
final port state. -/
def createN : RenderPort → Nat → RenderPort
  | st, 0 => st
  | st, n + 1 =>
    match st.create_texture_rgba 1 1 [0, 0, 0, 0] (-1) with
    | .ok p => createN p.1 n
    | .error _ => st

/-- Destroy every handle in the list, in order. -/
def destroyHandles (st : RenderPort) (hs : List Int) : RenderPort :=
  hs.foldl RenderPort.destroy_texture st

/-! ## Helper lemmas -/

/-- Creating a 1×1 texture from a 4-byte buffer always succeeds and returns
the current counter value. -/
lemma createUnit_ok (st : RenderPort) :
    st.create_texture_rgba 1 1 [0, 0, 0, 0] (-1) =
      .ok ({ st with nextTexId := st.nextTexId + 1,
                     textures := dictInsert st.textures st.nextTexId ⟨1, 1, [0, 0, 0, 0]⟩ },
           st.nextTexId) := rfl

lemma createN_nextTexId : ∀ (n : Nat) (st : RenderPort),
    (createN st n).nextTexId = st.nextTexId + n
  | 0, _ => by simp [createN]
  | n + 1, st => by
    have h : (createN st (n + 1)).nextTexId = st.nextTexId + 1 + n :=
      createN_nextTexId n
        { st with nextTexId := st.nextTexId + 1,
                  textures := dictInsert st.textures st.nextTexId ⟨1, 1, [0, 0, 0, 0]⟩ }
    rw [h]
    push_cast
    ring

lemma destroy_nextTexId (st : RenderPort) (tex : Int) :
    (st.destroy_texture tex).nextTexId = st.nextTexId := rfl

lemma destroyHandles_nextTexId : ∀ (hs : List Int) (st : RenderPort),
    (destroyHandles st hs).nextTexId = st.nextTexId
  | [], _ => rfl
  | t :: hs, st => destroyHandles_nextTexId hs (st.destroy_texture t)

/-! ## Claims -/

/-- Claim C2: if `create_texture_rgba` is called with a pixel buffer whose
byte length is less than `height * pitch` (with pitch taken as `width*4`
when the given pitch is ≤ 0), it fails with the insufficient-data
(buffer-too-small) `ValueError` and never partially succeeds: the error
carries no new port state, so no texture entry is added and the handle
counter is not incremented. -/
theorem create_texture_rgba_insufficient_data (st : RenderPort) (w h : Nat)
    (data : List Nat) (pitch : Int)
    (hlt : data.length < h * (if pitch ≤ 0 then w * 4 else pitch.toNat)) :
    st.create_texture_rgba w h data pitch =
      .error (bufferTooSmallMsg data.length
        (h * (if pitch ≤ 0 then w * 4 else pitch.toNat))) := by
  unfold RenderPort.create_texture_rgba
  simp only [hlt, if_true]

/-- Witness for C2: a 4-byte buffer for a 2×2 texture (tight pitch 16)
fails with the buffer-too-small error. -/
theorem create_texture_rgba_insufficient_data_witness :
    (RenderPort.init ⟨0, 0, 1⟩).create_texture_rgba 2 2 [1, 2, 3, 4] (-1) =
      .error (bufferTooSmallMsg 4 (2 * (if (-1 : Int) ≤ 0 then 2 * 4 else (-1 : Int).toNat))) :=
  create_texture_rgba_insufficient_data (RenderPort.init ⟨0, 0, 1⟩) 2 2
    [1, 2, 3, 4] (-1) (by decide)

/-- Claim C3: texture handles are strictly increasing, start at 1 and are
never reused: a successful `create_texture_rgba` returns the current
counter and increments it by exactly 1; `destroy_texture` never changes the
counter; creating N textures from a fresh port, destroying all of them,
then creating one more yields handle N+1. -/
theorem texture_handles_monotonic :
    (∀ (st : RenderPort) (w h : Nat) (data : List Nat) (pitch : Int)
        (st' : RenderPort) (tid : Int),
        st.create_texture_rgba w h data pitch = .ok (st', tid) →
        tid = st.nextTexId ∧ st'.nextTexId = st.nextTexId + 1) ∧
    (∀ (st : RenderPort) (tex : Int),
        (st.destroy_texture tex).nextTexId = st.nextTexId) ∧
    (∀ (vp : ViewportTransform) (N : Nat),
        ((destroyHandles (createN (RenderPort.init vp) N)
              ((List.range N).map (fun i => (i : Int) + 1))).create_texture_rgba
            1 1 [0, 0, 0, 0] (-1)).map Prod.snd = .ok ((N : Int) + 1)) := by
  refine ⟨?_, fun st tex => rfl, ?_⟩
  · intro st w h data pitch st' tid hok
    simp only [RenderPort.create_texture_rgba] at hok
    split at hok <;> split at hok <;>
      first
      | exact Except.noConfusion hok
      | · have h := Except.ok.inj hok
          rw [Prod.mk.injEq] at h
          exact ⟨h.2.symm, by rw [← h.1]⟩
  · intro vp N
    have hid : (destroyHandles (createN (RenderPort.init vp) N)
        ((List.range N).map (fun i => (i : Int) + 1))).nextTexId = (N : Int) + 1 := by
      rw [destroyHandles_nextTexId, createN_nextTexId]
      simp [RenderPort.init]
      ring
    rw [createUnit_ok, hid]
    rfl

/-- Witness for C3: on a fresh port, the first create returns handle 1 and
leaves the counter at 2. -/
theorem texture_handles_monotonic_witness :
    (1 : Int) = (RenderPort.init ⟨0, 0, 1⟩).nextTexId ∧
    ({ vp := ⟨0, 0, 1⟩, nextTexId := 2,
       textures := [(1, ⟨1, 1, [0, 0, 0, 0]⟩)] } : RenderPort).nextTexId =
      (RenderPort.init ⟨0, 0, 1⟩).nextTexId + 1 :=
  texture_handles_monotonic.1 (RenderPort.init ⟨0, 0, 1⟩) 1 1 [0, 0, 0, 0] (-1)
    { vp := ⟨0, 0, 1⟩, nextTexId := 2, textures := [(1, ⟨1, 1, [0, 0, 0, 0]⟩)] } 1
    (by rfl)

lemma dictGet_append_self {V : Type} (d : List (Int × V)) (k : Int) (v : V)
    (h : dictGet d k = none) : dictGet (d ++ [(k, v)]) k = some v := by
  unfold dictGet at h ⊢
  have hf : d.find? (fun p => p.1 == k) = none := by
    cases hfind : d.find? (fun p => p.1 == k) <;> simp [hfind] at h ⊢
  rw [List.find?_append, hf]
  simp [List.find?]

/-- Claim C6: for a registered texture handle, `draw_texture` maps `(x,y)`
and `(w,h)` through the viewport transform; when the mapped width or mapped
height is ≤ 0 it draws nothing; otherwise it emits exactly one blit at the
mapped position, resampled to the mapped target size exactly when the
texture's native size differs from that size, and blitted at native
resolution otherwise. -/
theorem draw_texture_viewport_mapping (st : RenderPort) (tex x y w h : Int)
    (surf : Surface) (hreg : dictGet st.textures tex = some surf) :
    ((st.vp.map_wh w h).1 ≤ 0 ∨ (st.vp.map_wh w h).2 ≤ 0 →
      st.draw_texture tex x y w h = []) ∧
    (0 < (st.vp.map_wh w h).1 → 0 < (st.vp.map_wh w h).2 →
      st.draw_texture tex x y w h =
        [⟨if (surf.w : Int) = (st.vp.map_wh w h).1 ∧ (surf.h : Int) = (st.vp.map_wh w h).2
            then surf
            else surf.scale (st.vp.map_wh w h).1.toNat (st.vp.map_wh w h).2.toNat,
          (st.vp.map_xy x y).1, (st.vp.map_xy x y).2⟩]) := by
  simp only [RenderPort.draw_texture, hreg]
  refine ⟨fun hle => by rw [if_pos hle], fun h1 h2 => ?_⟩
  have hn : ¬((st.vp.map_wh w h).1 ≤ 0 ∨ (st.vp.map_wh w h).2 ≤ 0) := by
    push_neg
    exact ⟨h1, h2⟩
  rw [if_neg hn]
  by_cases heq : (surf.w : Int) = (st.vp.map_wh w h).1 ∧
      (surf.h : Int) = (st.vp.map_wh w h).2
  · have hne : ¬((surf.w : Int) ≠ (st.vp.map_wh w h).1 ∨
        (surf.h : Int) ≠ (st.vp.map_wh w h).2) := by
      push_neg
      exact heq
    rw [if_neg hne, if_pos heq]
  · have hne : (surf.w : Int) ≠ (st.vp.map_wh w h).1 ∨
        (surf.h : Int) ≠ (st.vp.map_wh w h).2 := by
      tauto
    rw [if_pos hne, if_neg heq]

/-- Witness for C6: under viewport offset (7,9) and scale 1, a 1×1 texture
drawn at (2,3) with logical size 4×5 is resampled to 4×5 and blitted at
the mapped position (9,12). -/
theorem draw_texture_viewport_mapping_witness :
    ({ vp := ⟨7, 9, 1⟩, nextTexId := 2,
       textures := [(1, ⟨1, 1, [1, 2, 3, 4]⟩)] } : RenderPort).draw_texture 1 2 3 4 5 =
      [⟨Surface.scale ⟨1, 1, [1, 2, 3, 4]⟩ 4 5, 9, 12⟩] := by
  have h := (draw_texture_viewport_mapping
    { vp := ⟨7, 9, 1⟩, nextTexId := 2, textures := [(1, ⟨1, 1, [1, 2, 3, 4]⟩)] }
    1 2 3 4 5 ⟨1, 1, [1, 2, 3, 4]⟩ (by decide)).2
    (by simp [ViewportTransform.map_wh]) (by simp [ViewportTransform.map_wh])
  rw [h]
  norm_num [ViewportTransform.map_wh, ViewportTransform.map_xy]
  rfl

/-- Claim C8: `measure` never divides by zero: the divisor
`self._vp.s or 1.0` is nonzero for every viewport state, and when the
viewport scale is 0 the division treats the scale as 1.0, so `measure`
succeeds for every text and font size under scale 0, reporting the pixel
extents unchanged. -/
theorem measure_no_division_by_zero :
    (∀ vp : ViewportTransform, measureDivisor vp ≠ 0) ∧
    (∀ (metric : Font → String → Nat × Nat) (tp : TextPort) (text : String)
        (font_size : Option Int), tp.vp.s = 0 →
        tp.measure metric text font_size =
          .ok ((((metric (tp._font (measureScaledSize tp.vp font_size)).1 text).1 : Int),
                ((metric (tp._font (measureScaledSize tp.vp font_size)).1 text).2 : Int)),
               (tp._font (measureScaledSize tp.vp font_size)).2)) := by
  constructor
  · intro vp
    unfold measureDivisor
    split
    · exact one_ne_zero
    · assumption
  · intro metric tp text font_size h0
    have hdiv : measureDivisor tp.vp = 1 := by simp [measureDivisor, h0]
    simp [TextPort.measure, hdiv, pydiv]

/-- Witness for C8: a `TextPort` whose viewport scale is 0 measures text
without error, reporting the host metric's pixel extents. -/
theorem measure_no_division_by_zero_witness :
    TextPort.measure (fun f _ => (10 * f.size.toNat, f.size.toNat))
      ⟨⟨0, 0, 0⟩, none, []⟩ "hi" (some 12) =
      .ok ((80, 8), ⟨⟨0, 0, 0⟩, none, [(8, ⟨none, 8⟩)]⟩) := by
  have h := measure_no_division_by_zero.2
    (fun f _ => (10 * f.size.toNat, f.size.toNat)) ⟨⟨0, 0, 0⟩, none, []⟩ "hi" (some 12) rfl
  rw [h]
  norm_num [measureScaledSize, TextPort._font, fontKey, dictGet, dictInsert]

/-- Claim C9: the font cache is keyed by the scaled integer pixel size —
`max(8, round(requested_size * viewport.scale))` when a size is requested,
24 when unspecified — with `measure` and `draw` resolving the size through
the identical expression; `_font` creates at most one cache entry lazily
per distinct resolved size (appending it, evicting nothing), and a second
call with the same resolved size returns the cached font with the cache
unchanged. -/
theorem font_cache_keying :
    (∀ (vp : ViewportTransform) (fs : Option Int),
        measureScaledSize vp fs = drawScaledSize vp fs) ∧
    (∀ (vp : ViewportTransform) (fs : Option Int),
        fontKey (measureScaledSize vp fs) =
          (match fs with
           | none => 24
           | some v => max 8 (round ((v : ℚ) * vp.s)))) ∧
    (∀ (tp : TextPort) (fs : Option Int) (f : Font),
        dictGet tp.fonts (fontKey fs) = some f → tp._font fs = (f, tp)) ∧
    (∀ (tp : TextPort) (fs : Option Int),
        dictGet tp.fonts (fontKey fs) = none →
        ∃ f : Font, tp._font fs =
          (f, { tp with fonts := tp.fonts ++ [(fontKey fs, f)] })) ∧
    (∀ (tp : TextPort) (fs : Option Int),
        ((tp._font fs).2)._font fs = tp._font fs) := by
  have key3 : ∀ (tp : TextPort) (fs : Option Int) (f : Font),
      dictGet tp.fonts (fontKey fs) = some f → tp._font fs = (f, tp) := by
    intro tp fs f hget
    simp only [TextPort._font, hget]
  have key4 : ∀ (tp : TextPort) (fs : Option Int),
      dictGet tp.fonts (fontKey fs) = none →
      ∃ f : Font, tp._font fs =
        (f, { tp with fonts := tp.fonts ++ [(fontKey fs, f)] }) := by
    intro tp fs hget
    refine ⟨(match tp.font_path with
             | some p => if p = "" then (⟨none, fontKey fs⟩ : Font) else ⟨some p, fontKey fs⟩
             | none => ⟨none, fontKey fs⟩), ?_⟩
    simp only [TextPort._font, hget, dictInsert, Option.isSome_none,
      Bool.false_eq_true, if_false]
  refine ⟨fun vp fs => rfl, ?_, key3, key4, ?_⟩
  · intro vp fs
    cases fs with
    | none => rfl
    | some v =>
      have h8 : (8 : Int) ≤ max 8 (round ((v : ℚ) * vp.s)) := le_max_left _ _
      show fontKey (some (max 8 (round ((v : ℚ) * vp.s)))) =
        max 8 (round ((v : ℚ) * vp.s))
      simp only [fontKey]
      rw [if_neg (by omega)]
      rw [← max_assoc, max_self]
  · intro tp fs
    cases hget : dictGet tp.fonts (fontKey fs) with
    | some f =>
      rw [key3 tp fs f hget, key3 tp fs f hget]
    | none =>
      obtain ⟨f, hf⟩ := key4 tp fs hget
      rw [hf]
      have hnext : dictGet (tp.fonts ++ [(fontKey fs, f)]) (fontKey fs) = some f :=
        dictGet_append_self tp.fonts (fontKey fs) f hget
      exact key3 _ fs f hnext

/-- Witness for C9: a cache holding size 24 returns the stored font and an
unchanged cache when no size is requested (resolved key 24). -/
theorem font_cache_keying_witness :
    TextPort._font ⟨⟨0, 0, 1⟩, none, [(24, ⟨none, 24⟩)]⟩ none =
      (⟨none, 24⟩, ⟨⟨0, 0, 1⟩, none, [(24, ⟨none, 24⟩)]⟩) :=
  font_cache_keying.2.2.1 ⟨⟨0, 0, 1⟩, none, [(24, ⟨none, 24⟩)]⟩ none ⟨none, 24⟩ (by decide)

lemma poll_foldl (q : List RawEvent) : ∀ acc : List Event,
    q.foldl
      (fun out ev =>
        match normalizeEvent ev with
        | some e => out ++ [e]
        | none => out)
      acc = acc ++ q.filterMap normalizeEvent := by
  induction q with
  | nil => intro acc; simp
  | cons r q ih =>
    intro acc
    cases hr : normalizeEvent r <;>
      simp [List.foldl_cons, List.filterMap_cons, hr, ih]

/-- Claim C7: `poll` emits exactly one normalized event per raw event of a
recognized type, in arrival order, silently dropping unrecognized raw
types, with no coalescing or reordering (it is a filter-map of the queue);
a key event whose raw key code is absent from the key table still produces
an event carrying the raw code with a null logical key; an empty queue
yields `[]`; and a queue of `[QUIT, KEYDOWN(ESC)]` yields exactly those two
normalized events in that order. -/
theorem poll_normalization :
    (∀ q : List RawEvent, InputPort.poll q = q.filterMap normalizeEvent) ∧
    (∀ r : RawEvent, normalizeEvent r = none ↔ ∃ t, r = .other t) ∧
    (∀ (code : Int) (sc md : Option Int) (rp : Option Bool),
        dictGet PYGAME_KEY_TO_KEY code = none →
        normalizeEvent (.KEYDOWN code sc md rp) =
          some { type := .KEYDOWN, key := none, key_code := some code,
                 scancode := sc, mod := md, rep := some (rp.getD false) } ∧
        normalizeEvent (.KEYUP code sc md) =
          some { type := .KEYUP, key := none, key_code := some code,
                 scancode := sc, mod := md, rep := some false }) ∧
    InputPort.poll [] = [] ∧
    InputPort.poll [.QUIT, .KEYDOWN 27 none none none] =
      [{ type := .QUIT },
       { type := .KEYDOWN, key := some .ESCAPE, key_code := some 27,
         scancode := none, mod := none, rep := some false }] := by
  refine ⟨fun q => poll_foldl q [], ?_, ?_, rfl, ?_⟩
  · intro r
    cases r <;> simp [normalizeEvent]
  · intro code sc md rp hnone
    exact ⟨by simp [normalizeEvent, hnone], by simp [normalizeEvent, hnone]⟩
  · rfl

/-- Witness for C7: key code 999 is absent from the key table, yet both key
events still normalize, carrying the raw code and a null logical key. -/
theorem poll_normalization_witness :
    normalizeEvent (.KEYDOWN 999 none none none) =
      some { type := .KEYDOWN, key := none, key_code := some 999,
             scancode := none, mod := none, rep := some false } ∧
    normalizeEvent (.KEYUP 999 none none) =
      some { type := .KEYUP, key := none, key_code := some 999,
             scancode := none, mod := none, rep := some false } :=
  poll_normalization.2.2.1 999 none none none (by decide)

/-- Counterexample to C1 as stated: on a fresh port where handle 1 was
never created, `draw_texture_tiled_y` raises a `KeyError` instead of
performing no drawing and returning successfully. -/
theorem tiled_unknown_handle_raises :
    (RenderPort.init ⟨0, 0, 1⟩).draw_texture_tiled_y 10 1 0 0 5 5 =
      some (.error "KeyError: 1") := rfl

/-- Claim C1 (amended): for a handle that was never created or has been
destroyed, `draw_texture` performs no drawing, raises no exception and
returns successfully; `draw_texture_tiled_y`, however, raises a `KeyError`
(and draws nothing). -/
theorem unknown_handle_draw_behavior (st : RenderPort) (fuel : Nat)
    (tex x y w h : Int) (hnone : dictGet st.textures tex = none) :
    st.draw_texture tex x y w h = [] ∧
    st.draw_texture_tiled_y fuel tex x y w h =
      some (.error ("KeyError: " ++ toString tex)) := by
  constructor
  · simp [RenderPort.draw_texture, hnone]
  · simp [RenderPort.draw_texture_tiled_y, hnone]

/-- Witness for amended C1: after texture 1 is created and then destroyed,
`draw_texture` silently draws nothing while `draw_texture_tiled_y` raises
`KeyError`. -/
theorem unknown_handle_draw_behavior_witness :
    (({ vp := ⟨0, 0, 1⟩, nextTexId := 2,
        textures := [(1, ⟨1, 1, [0, 0, 0, 0]⟩)] } : RenderPort).destroy_texture
          1).draw_texture 1 0 0 5 5 = [] ∧
    (({ vp := ⟨0, 0, 1⟩, nextTexId := 2,
        textures := [(1, ⟨1, 1, [0, 0, 0, 0]⟩)] } : RenderPort).destroy_texture
          1).draw_texture_tiled_y 10 1 0 0 5 5 =
      some (.error "KeyError: 1") :=
  unknown_handle_draw_behavior
    (({ vp := ⟨0, 0, 1⟩, nextTexId := 2,
        textures := [(1, ⟨1, 1, [0, 0, 0, 0]⟩)] } : RenderPort).destroy_texture 1)
    10 1 0 0 5 5 (by decide)

lemma tileLoop_exact (tile : Surface) (x : Int) (hth : 0 < tile.h) :
    ∀ (k : Nat) (y : Int) (fuel : Nat), k < fuel →
      tileLoop tile x y (y + (k : Int) * tile.h) fuel =
        some ((List.range k).map (fun i => ⟨tile, x, y + (i : Int) * tile.h⟩)) := by
  intro k
  induction k with
  | zero =>
    intro y fuel hf
    match fuel, hf with
    | fuel + 1, _ => simp [tileLoop]
  | succ k ih =>
    intro y fuel hf
    match fuel, hf with
    | fuel + 1, hf =>
      have hth' : (0 : Int) < (tile.h : Int) := by exact_mod_cast hth
      have hlt : y < y + ((k : Nat) + 1 : Int) * tile.h := by nlinarith
      have hrem : (tile.h : Int) ≤ y + ((k : Nat) + 1 : Int) * tile.h - y := by
        nlinarith
      simp only [tileLoop, Nat.cast_succ]
      rw [if_pos hlt, if_pos hrem]
      have hend : y + ((k : Nat) + 1 : Int) * tile.h =
          (y + (tile.h : Int)) + (k : Int) * tile.h := by ring
      rw [hend, ih (y + (tile.h : Int)) fuel (by omega)]
      rw [Option.map_some']
      refine congrArg some ?_
      rw [List.range_succ_eq_map, List.map_cons, List.map_map]
      refine congrArg₂ List.cons ?_ ?_
      · simp
      · refine List.map_congr_left fun i _ => ?_
        simp only [Function.comp_apply]
        congr 1
        push_cast
        ring

lemma tileLoop_full_then_part (tile : Surface) (x y : Int) (f : Nat)
    (hth : 5 < tile.h) :
    tileLoop tile x y (y + (tile.h : Int) + 5) (f + 2) =
      some [⟨tile, x, y⟩, ⟨tile.cropTop 5, x, y + (tile.h : Int)⟩] := by
  simp only [tileLoop]
  rw [if_pos (show y < y + (tile.h : Int) + 5 by omega)]
  rw [if_pos (show (tile.h : Int) ≤ y + (tile.h : Int) + 5 - y by omega)]
  rw [if_pos (show y + (tile.h : Int) < y + (tile.h : Int) + 5 by omega)]
  rw [if_neg (show ¬ (tile.h : Int) ≤ y + (tile.h : Int) + 5 - (y + (tile.h : Int)) by omega)]
  have h5 : y + (tile.h : Int) + 5 - (y + (tile.h : Int)) = (5 : Int) := by ring
  rw [h5]
  rfl

lemma tileLoop_blits (tile : Surface) (x : Int) :
    ∀ (fuel : Nat) (cur_y end_y : Int) (res : List Blit),
      tileLoop tile x cur_y end_y fuel = some res →
      (∀ b ∈ res, b.dx = x ∧ b.img.w = tile.w) ∧
      (∀ b, res.head? = some b → b.dy = cur_y)
  | 0, cur_y, end_y, res => by simp [tileLoop]
  | fuel + 1, cur_y, end_y, res => by
    intro hres
    simp only [tileLoop] at hres
    split at hres
    · split at hres
      · cases hrec : tileLoop tile x (cur_y + (tile.h : Int)) end_y fuel with
        | none => rw [hrec] at hres; simp at hres
        | some rest =>
          rw [hrec, Option.map_some'] at hres
          obtain ⟨ih1, _⟩ := tileLoop_blits tile x fuel _ _ rest hrec
          obtain rfl : (⟨tile, x, cur_y⟩ : Blit) :: rest = res := Option.some.inj hres
          refine ⟨?_, ?_⟩
          · intro b hb
            rcases List.mem_cons.mp hb with rfl | hb
            · exact ⟨rfl, rfl⟩
            · exact ih1 b hb
          · intro b hb
            obtain rfl : (⟨tile, x, cur_y⟩ : Blit) = b := Option.some.inj hb
            rfl
      · obtain rfl := Option.some.inj hres
        refine ⟨?_, ?_⟩
        · intro b hb
          rcases List.mem_cons.mp hb with rfl | hb
          · exact ⟨rfl, rfl⟩
          · simp at hb
        · intro b hb
          obtain rfl : (⟨tile.cropTop _, x, cur_y⟩ : Blit) = b := Option.some.inj hb
          rfl
    · obtain rfl := Option.some.inj hres
      exact ⟨fun b hb => absurd hb (List.not_mem_nil b), fun b hb => by simp at hb⟩

/-- Claim C5: `draw_texture_tiled_y` walks `cur_y` from `y` to `y+h` in
steps of the tile's native height, blitting full tiles while the remaining
height is at least `tile_h` and a top-rows crop for a final remainder: for
`tile_h > 0`, a target height that is an exact positive multiple `k*tile_h`
produces exactly `k` full tiles and no partial tile, and a height of
`tile_h + 5` (with `tile_h > 5`) produces one full tile plus one partial
tile of 5 rows. -/
theorem tiled_y_tiling :
    (∀ (st : RenderPort) (tex x y w : Int) (surf : Surface) (k fuel : Nat),
        dictGet st.textures tex = some surf → 0 ≤ w → 0 < surf.h → k < fuel →
        st.draw_texture_tiled_y fuel tex x y w ((k : Int) * surf.h) =
          some (.ok ((List.range k).map
            (fun (i : Nat) => ⟨surf.scale w.toNat surf.h, x, y + (i : Int) * surf.h⟩)))) ∧
    (∀ (st : RenderPort) (tex x y w : Int) (surf : Surface) (f : Nat),
        dictGet st.textures tex = some surf → 0 ≤ w → 5 < surf.h →
        st.draw_texture_tiled_y (f + 2) tex x y w ((surf.h : Int) + 5) =
          some (.ok [⟨surf.scale w.toNat surf.h, x, y⟩,
                     ⟨(surf.scale w.toNat surf.h).cropTop 5, x, y + (surf.h : Int)⟩])) := by
  constructor
  · intro st tex x y w surf k fuel hreg hw hth hfuel
    simp only [RenderPort.draw_texture_tiled_y, hreg]
    rw [if_neg (by omega : ¬ w < 0)]
    have hh : ((surf.scale w.toNat surf.h).h : Int) = (surf.h : Int) := rfl
    have hloop := tileLoop_exact (surf.scale w.toNat surf.h) x hth k y fuel hfuel
    rw [hh] at hloop
    rw [hloop, Option.map_some']
  · intro st tex x y w surf f hreg hw hth
    simp only [RenderPort.draw_texture_tiled_y, hreg]
    rw [if_neg (by omega : ¬ w < 0)]
    have hh : ((surf.scale w.toNat surf.h).h : Int) = (surf.h : Int) := rfl
    have hloop := tileLoop_full_then_part (surf.scale w.toNat surf.h) x y f hth
    rw [hh] at hloop
    rw [show y + ((surf.h : Int) + 5) = y + (surf.h : Int) + 5 by ring, hloop,
      Option.map_some']

/-- Witness for C5: a 1×3 tile filling height 6 at width 2 yields exactly
two full tiles, at y = 10 and y = 13. -/
theorem tiled_y_tiling_witness :
    ({ vp := ⟨0, 0, 1⟩, nextTexId := 2,
       textures := [(1, ⟨1, 3, [1, 2, 3, 4, 5, 6, 7, 8, 9, 10, 11, 12]⟩)] }
        : RenderPort).draw_texture_tiled_y 3 1 5 10 2 6 =
      some (.ok [⟨Surface.scale ⟨1, 3, [1, 2, 3, 4, 5, 6, 7, 8, 9, 10, 11, 12]⟩ 2 3, 5, 10⟩,
                 ⟨Surface.scale ⟨1, 3, [1, 2, 3, 4, 5, 6, 7, 8, 9, 10, 11, 12]⟩ 2 3, 5, 13⟩]) := by
  have h := tiled_y_tiling.1
    { vp := ⟨0, 0, 1⟩, nextTexId := 2,
      textures := [(1, ⟨1, 3, [1, 2, 3, 4, 5, 6, 7, 8, 9, 10, 11, 12]⟩)] }
    1 5 10 2 ⟨1, 3, [1, 2, 3, 4, 5, 6, 7, 8, 9, 10, 11, 12]⟩ 2 3
    (by decide) (by decide) (by decide) (by decide)
  rw [show ((6 : Int) = (2 : Nat) * (⟨1, 3, [1, 2, 3, 4, 5, 6, 7, 8, 9, 10, 11, 12]⟩ : Surface).h) by decide] at *
  rw [h]
  rfl

/-- Claim C10: `draw_texture_tiled_y` never consults the viewport
transform: its result is unchanged under any replacement of the port's
viewport, and every blit it emits sits at the unmapped `x` (the first at
the unmapped `y`) with the tile scaled to the unmapped width — unlike
`draw_texture`, whose blit always sits at the viewport-mapped position. -/
theorem tiled_y_ignores_viewport :
    (∀ (st : RenderPort) (vp' : ViewportTransform) (fuel : Nat) (tex x y w h : Int),
        RenderPort.draw_texture_tiled_y { st with vp := vp' } fuel tex x y w h =
          st.draw_texture_tiled_y fuel tex x y w h) ∧
    (∀ (st : RenderPort) (fuel : Nat) (tex x y w h : Int) (blits : List Blit),
        st.draw_texture_tiled_y fuel tex x y w h = some (.ok blits) →
        (∀ b ∈ blits, b.dx = x ∧ b.img.w = w.toNat) ∧
        (∀ b, blits.head? = some b → b.dy = y)) ∧
    (∀ (st : RenderPort) (tex x y w h : Int) (b : Blit),
        b ∈ st.draw_texture tex x y w h →
        b.dx = (st.vp.map_xy x y).1 ∧ b.dy = (st.vp.map_xy x y).2) := by
  refine ⟨fun st vp' fuel tex x y w h => rfl, ?_, ?_⟩
  · intro st fuel tex x y w h blits hres
    cases hget : dictGet st.textures tex with
    | none => simp [RenderPort.draw_texture_tiled_y, hget] at hres
    | some surf =>
      simp only [RenderPort.draw_texture_tiled_y, hget] at hres
      split at hres
      · simp at hres
      · cases hloop : tileLoop (surf.scale w.toNat surf.h) x y (y + h) fuel with
        | none => rw [hloop] at hres; simp at hres
        | some l =>
          rw [hloop, Option.map_some'] at hres
          obtain rfl : l = blits := Except.ok.inj (Option.some.inj hres)
          exact tileLoop_blits (surf.scale w.toNat surf.h) x fuel y (y + h) _ hloop
  · intro st tex x y w h b hb
    cases hget : dictGet st.textures tex with
    | none => simp [RenderPort.draw_texture, hget] at hb
    | some surf =>
      simp only [RenderPort.draw_texture, hget] at hb
      split at hb
      · simp at hb
      · split at hb <;>
          (obtain rfl := List.mem_singleton.mp hb; exact ⟨rfl, rfl⟩)

/-- Witness for C10: in the two-tile run of the 1×3 tile, the first blit
sits at the unmapped x = 5 with the tile scaled to the unmapped width 2. -/
theorem tiled_y_ignores_viewport_witness :
    (⟨Surface.scale ⟨1, 3, [1, 2, 3, 4, 5, 6, 7, 8, 9, 10, 11, 12]⟩ 2 3, 5, 10⟩ : Blit).dx = 5 ∧
    (⟨Surface.scale ⟨1, 3, [1, 2, 3, 4, 5, 6, 7, 8, 9, 10, 11, 12]⟩ 2 3, 5, 10⟩ : Blit).img.w =
      (2 : Int).toNat :=
  (tiled_y_ignores_viewport.2.1
    { vp := ⟨0, 0, 1⟩, nextTexId := 2,
      textures := [(1, ⟨1, 3, [1, 2, 3, 4, 5, 6, 7, 8, 9, 10, 11, 12]⟩)] }
    3 1 5 10 2 6
    [⟨Surface.scale ⟨1, 3, [1, 2, 3, 4, 5, 6, 7, 8, 9, 10, 11, 12]⟩ 2 3, 5, 10⟩,
     ⟨Surface.scale ⟨1, 3, [1, 2, 3, 4, 5, 6, 7, 8, 9, 10, 11, 12]⟩ 2 3, 5, 13⟩]
    (by rfl)).1 _ (by simp)

lemma row_slice_eq (mv : List Nat) (a b : Nat) :
    (mv.take (a + b)).drop a = (mv.drop a).take b := by
  rw [List.drop_take]
  simp

lemma setSlice_append (A B repl : List Nat) (n W : Nat) (hA : A.length = n) :
    setSlice (A ++ B) n (n + W) repl = A ++ repl ++ B.drop W := by
  subst hA
  unfold setSlice
  rw [List.take_left, List.drop_append]

lemma flat_rows_length (f : Nat → List Nat) (W : Nat) :
    ∀ k, (∀ r, r < k → (f r).length = W) →
      ((List.range k).flatMap f).length = k * W := by
  intro k
  induction k with
  | zero => simp
  | succ k ih =>
    intro hr
    rw [List.range_succ, List.flatMap_append]
    simp only [List.flatMap_cons, List.flatMap_nil, List.append_nil]
    rw [List.length_append, ih (fun r h => hr r (by omega)), hr k (by omega)]
    ring

lemma flatMap_congr_range {f g : Nat → List Nat} :
    ∀ k, (∀ r, r < k → f r = g r) →
      (List.range k).flatMap f = (List.range k).flatMap g := by
  intro k
  induction k with
  | zero => simp
  | succ k ih =>
    intro h
    rw [List.range_succ, List.flatMap_append, List.flatMap_append,
      ih (fun r hr => h r (by omega))]
    simp [h k (by omega)]

lemma repack_fold (mv : List Nat) (w pitch : Nat) :
    ∀ (k : Nat) (buf : List Nat),
      (∀ r, r < k → ((mv.take (r * pitch + w * 4)).drop (r * pitch)).length = w * 4) →
      k * (w * 4) ≤ buf.length →
      (List.range k).foldl
          (fun packed row =>
            setSlice packed (row * (w * 4)) (row * (w * 4) + w * 4)
              ((mv.take (row * pitch + w * 4)).drop (row * pitch)))
          buf =
        ((List.range k).flatMap
            (fun r => (mv.take (r * pitch + w * 4)).drop (r * pitch))) ++
          buf.drop (k * (w * 4)) := by
  intro k
  induction k with
  | zero =>
    intro buf _ _
    simp
  | succ k ih =>
    intro buf hr hlen
    have hstep : k * (w * 4) ≤ buf.length :=
      le_trans (Nat.mul_le_mul_right _ (by omega)) hlen
    rw [List.range_succ, List.foldl_append, List.foldl_cons, List.foldl_nil,
      ih buf (fun r h => hr r (by omega)) hstep]
    have hflen : ((List.range k).flatMap
        (fun r => (mv.take (r * pitch + w * 4)).drop (r * pitch))).length =
          k * (w * 4) :=
      flat_rows_length _ _ k (fun r h => hr r (by omega))
    rw [setSlice_append _ _ _ _ _ hflen, List.drop_drop]
    rw [List.flatMap_append]
    simp only [List.flatMap_cons, List.flatMap_nil, List.append_nil]
    rw [List.append_assoc]
    have harith : (k + 1) * (w * 4) = k * (w * 4) + w * 4 := by ring
    rw [harith, List.append_assoc]

lemma flat_rows_take (l : List Nat) (W : Nat) :
    ∀ h, h * W ≤ l.length →
      (List.range h).flatMap (fun r => (l.drop (r * W)).take W) = l.take (h * W) := by
  intro h
  induction h with
  | zero => simp
  | succ h ih =>
    intro hlen
    rw [List.range_succ, List.flatMap_append]
    simp only [List.flatMap_cons, List.flatMap_nil, List.append_nil]
    rw [ih (le_trans (Nat.mul_le_mul_right _ (by omega)) hlen)]
    have harith : (h + 1) * W = h * W + W := by ring
    rw [harith, List.take_add]

lemma repackLoop_eq_rows (mv : List Nat) (w h pitch : Nat)
    (hrow : ∀ r, r < h →
      ((mv.take (r * pitch + w * 4)).drop (r * pitch)).length = w * 4) :
    repackLoop mv w h pitch =
      (List.range h).flatMap
        (fun r => (mv.take (r * pitch + w * 4)).drop (r * pitch)) := by
  unfold repackLoop
  rw [repack_fold mv w pitch h (List.replicate (w * h * 4) 0) hrow
      (by rw [List.length_replicate]; exact Nat.le_of_eq (by ring))]
  rw [List.drop_eq_nil_of_le (by rw [List.length_replicate]; exact Nat.le_of_eq (by ring)),
    List.append_nil]

/-- Claim C4: for a padded pitch `p > w*4`, `create_texture_rgba` repacks by
copying, for each row `r < h`, bytes `[r*p, r*p + w*4)` of the input into
row `r` of a contiguous `w*4`-stride buffer, ignoring the padding; hence
when the padded buffer's rows agree with a tightly packed buffer, the
padded call and the tight call succeed identically, storing pixel-identical
surfaces under the same fresh handle. -/
theorem create_texture_rgba_padded_eq_tight (st : RenderPort) (w h : Nat)
    (pitch : Int) (data tight : List Nat)
    (hpitch : (w * 4 : Int) < pitch)
    (hdata : h * pitch.toNat ≤ data.length)
    (htight : h * (w * 4) ≤ tight.length)
    (hrows : ∀ r, r < h →
      (data.drop (r * pitch.toNat)).take (w * 4) =
        (tight.drop (r * (w * 4))).take (w * 4)) :
    (repackLoop data w h pitch.toNat =
      (List.range h).flatMap
        (fun r => (data.drop (r * pitch.toNat)).take (w * 4))) ∧
    st.create_texture_rgba w h data pitch =
      .ok ({ st with nextTexId := st.nextTexId + 1,
                     textures := dictInsert st.textures st.nextTexId
                       ⟨w, h, tight.take (w * h * 4)⟩ }, st.nextTexId) ∧
    st.create_texture_rgba w h tight ((w * 4 : Nat) : Int) =
      .ok ({ st with nextTexId := st.nextTexId + 1,
                     textures := dictInsert st.textures st.nextTexId
                       ⟨w, h, tight.take (w * h * 4)⟩ }, st.nextTexId) := by
  have hp4 : w * 4 < pitch.toNat := by omega
  have hrowlen : ∀ r, r < h →
      ((data.take (r * pitch.toNat + w * 4)).drop (r * pitch.toNat)).length = w * 4 := by
    intro r hrh
    rw [row_slice_eq]
    have h1 : r * pitch.toNat + w * 4 ≤ (r + 1) * pitch.toNat := by
      rw [Nat.succ_mul]
      omega
    have h2 : (r + 1) * pitch.toNat ≤ h * pitch.toNat :=
      Nat.mul_le_mul_right _ (by omega)
    simp only [List.length_take, List.length_drop]
    omega
  have hrepack1 : repackLoop data w h pitch.toNat =
      (List.range h).flatMap
        (fun r => (data.drop (r * pitch.toNat)).take (w * 4)) := by
    rw [repackLoop_eq_rows data w h pitch.toNat hrowlen]
    exact flatMap_congr_range h (fun r _ => row_slice_eq data (r * pitch.toNat) (w * 4))
  have hrepack2 : repackLoop data w h pitch.toNat = tight.take (h * (w * 4)) := by
    rw [hrepack1, flatMap_congr_range h hrows]
    exact flat_rows_take tight (w * 4) h htight
  have hwh : h * (w * 4) = w * h * 4 := by ring
  have htt : (tight.take (h * (w * 4))).take (w * h * 4) = tight.take (w * h * 4) := by
    rw [List.take_take, hwh, min_self]
  refine ⟨hrepack1, ?_, ?_⟩
  · have hpn : (if pitch ≤ 0 then w * 4 else pitch.toNat) = pitch.toNat :=
      if_neg (by omega)
    simp only [RenderPort.create_texture_rgba, hpn]
    rw [if_neg (show ¬ data.length < h * pitch.toNat by omega)]
    rw [if_neg (show ¬ pitch.toNat = w * 4 by omega)]
    unfold frombuffer
    rw [hrepack2, htt]
  · have hpn : (if ((w * 4 : Nat) : Int) ≤ 0 then w * 4 else ((w * 4 : Nat) : Int).toNat) =
        w * 4 := by
      split
      · rfl
      · exact Int.toNat_natCast _
    simp only [RenderPort.create_texture_rgba, hpn]
    rw [if_neg (show ¬ tight.length < h * (w * 4) by omega)]
    simp only [if_true]
    unfold frombuffer
    rw [htt]

/-- Witness for C4: a 1×2 texture from a pitch-6 padded buffer (two junk
bytes per row) equals the texture from the tightly packed 8-byte buffer. -/
theorem create_texture_rgba_padded_eq_tight_witness :
    (RenderPort.init ⟨0, 0, 1⟩).create_texture_rgba 1 2
        [1, 2, 3, 4, 9, 9, 5, 6, 7, 8, 9, 9] 6 =
      .ok ({ vp := ⟨0, 0, 1⟩, nextTexId := 2,
             textures := [(1, ⟨1, 2, [1, 2, 3, 4, 5, 6, 7, 8]⟩)] }, 1) ∧
    (RenderPort.init ⟨0, 0, 1⟩).create_texture_rgba 1 2
        [1, 2, 3, 4, 5, 6, 7, 8] ((4 : Nat) : Int) =
      .ok ({ vp := ⟨0, 0, 1⟩, nextTexId := 2,
             textures := [(1, ⟨1, 2, [1, 2, 3, 4, 5, 6, 7, 8]⟩)] }, 1) := by
  have h := create_texture_rgba_padded_eq_tight (RenderPort.init ⟨0, 0, 1⟩) 1 2 6
    [1, 2, 3, 4, 9, 9, 5, 6, 7, 8, 9, 9] [1, 2, 3, 4, 5, 6, 7, 8]
    (by decide) (by decide) (by decide) (by decide)
  exact ⟨h.2.1, h.2.2⟩

end MiniArcade
